import Mathlib

/-
Verification of the tool registry and invocation core of the mochiagents/toolkit
repository (an MCP-style JSON-RPC tool server).

The embedding models JSON data (the payloads flowing through the dispatcher) as
an inductive `JValue` with Python truthiness, and translates the three source
layers:
  * `toolkit/available_tools/__init__.py`  — module-level registration tables
    (`TOOL_DEFINITIONS`, `TOOL_EXECUTORS`, `TOOL_INITIALIZERS`), `register_tool`,
    `initialize_all_tools`;
  * `toolkit/mcp_server/tool_registry.py` — `RegisteredTool`, `_tool_registry`,
    `discover_and_register_tools`, `call_tool`;
  * `toolkit/mcp_server/main.py`          — `mcp_rpc_handler`;
  * `toolkit/available_tools/google_sheets/google_sheets_tool.py`
    — `execute_google_sheets_read` (with the external Sheets API client kept
    opaque behind a request/response function).

Side effects are made explicit: mutation of the module-level tables becomes
state passing over `RegState`; a Python `raise` becomes `Except.error`; the
invocation of a tool executor (the effect the spec's "no tool is invoked"
clauses talk about) is recorded in an invocation log returned alongside each
response.
-/

namespace Toolkit

/-- JSON-like values as seen by the dispatcher after FastAPI deserialisation.
Objects keep their (unique-key) fields as an insertion-ordered association
list, matching Python dicts. -/
inductive JValue where
  | null
  | bool (b : Bool)
  | num (n : Int)
  | str (s : String)
  | arr (elems : List JValue)
  | obj (fields : List (String × JValue))

/-- Python truthiness of a JSON value: `None`, `False`, `0`, `""`, `[]` and
`{}` are falsy, everything else truthy. -/
def JValue.isTruthy : JValue → Bool
  | .null => false
  | .bool b => b
  | .num n => n != 0
  | .str s => !(s == "")
  | .arr elems => !elems.isEmpty
  | .obj fields => !fields.isEmpty

/-- Python `isinstance(v, dict)`. -/
def JValue.isObj : JValue → Bool
  | .obj _ => true
  | _ => false

/-- Python `isinstance(v, str)`. -/
def JValue.isStr : JValue → Bool
  | .str _ => true
  | _ => false

/-- Python `d.get(k)` on a dict: `some v` when the key is present (possibly
bound to `null`), `none` when absent. -/
def getField (fields : List (String × JValue)) (k : String) : Option JValue :=
  (fields.find? (fun p => p.1 == k)).map (fun p => p.2)

/-- Association-list lookup, modelling `d.get(k)` on dicts whose values are
not JSON (executors, registered tools). -/
def dictGet {α : Type} (fields : List (String × α)) (k : String) : Option α :=
  (fields.find? (fun p => p.1 == k)).map (fun p => p.2)

/-- Python `d[k] = v` on an insertion-ordered dict: replace in place when the
key exists, append otherwise. -/
def dictInsert {α : Type} (fields : List (String × α)) (k : String) (v : α) :
    List (String × α) :=
  if fields.any (fun p => p.1 == k) then
    fields.map (fun p => if p.1 == k then (k, v) else p)
  else
    fields ++ [(k, v)]

/- ---------------------------------------------------------------------------
Data model: `toolkit/mcp_server/models.py` (pydantic models).
--------------------------------------------------------------------------- -/

/-- Source: `class ToolInputSchema(BaseModel)`.  The pydantic field named
`example` is called `example_val` here because `example` is reserved in Lean. -/
structure ToolInputSchema where
  name : String
  description : String
  type : String
  required : Bool
  example_val : Option JValue

/-- Source: `class ToolOutputSchemaDefinition(BaseModel)`; `properties` and
`items` are free-form JSON in the source (`Dict[str, Any]`). -/
structure ToolOutputSchemaDefinition where
  type : String
  description : Option String
  properties : Option JValue
  items : Option JValue
  example_val : Option JValue

/-- Source: `class ToolDefinition(BaseModel)`. -/
structure ToolDefinition where
  tool_name : String
  description : String
  inputs : List ToolInputSchema
  output : ToolOutputSchemaDefinition

/-- `model_dump()` of a `ToolInputSchema`: optional fields serialise to null. -/
def ToolInputSchema.dump (s : ToolInputSchema) : JValue :=
  .obj [("name", .str s.name), ("description", .str s.description),
        ("type", .str s.type), ("required", .bool s.required),
        ("example", s.example_val.getD .null)]

/-- `model_dump()` of a `ToolOutputSchemaDefinition`. -/
def ToolOutputSchemaDefinition.dump (s : ToolOutputSchemaDefinition) : JValue :=
  .obj [("type", .str s.type),
        ("description", (s.description.map JValue.str).getD .null),
        ("properties", s.properties.getD .null),
        ("items", s.items.getD .null),
        ("example", s.example_val.getD .null)]

/-- `model_dump()` of a `ToolDefinition`. -/
def ToolDefinition.dump (d : ToolDefinition) : JValue :=
  .obj [("tool_name", .str d.tool_name), ("description", .str d.description),
        ("inputs", .arr (d.inputs.map ToolInputSchema.dump)),
        ("output", d.output.dump)]

/- ---------------------------------------------------------------------------
Tool behaviour: executors and initializers are opaque callables.  An executor
call either returns a JSON value or raises; the string of `.raises` is
`str(e)` of the exception.
--------------------------------------------------------------------------- -/

/-- Result of awaiting one executor call. -/
inductive ExecResult where
  | returns (v : JValue)
  | raises (msg : String)

/-- A tool execute function: `execute(inputs) -> dict` (async in the source). -/
def Executor : Type := JValue → ExecResult

/-- An initializer callable.  `ident` models Python object identity (the `in`
membership tests on lists of callables compare by identity); `fname` is
`__name__`; `run` is the call, which either returns or raises. -/
structure Initializer where
  ident : Nat
  fname : String
  run : Unit → Except String Unit

/- ---------------------------------------------------------------------------
Registration layer: `toolkit/available_tools/__init__.py`.  The three
module-level tables become one explicit state record; `register_tool`'s
`raise ValueError` becomes `Except.error` (the source raises before touching
any table, so on error the state is unchanged by construction).
--------------------------------------------------------------------------- -/

/-- The module-level tables `TOOL_DEFINITIONS`, `TOOL_EXECUTORS` and
`TOOL_INITIALIZERS`. -/
structure RegState where
  tool_definitions : List (String × ToolDefinition)
  tool_executors : List (String × Executor)
  tool_initializers : List Initializer

/-- State of the module at load time: all three tables empty. -/
def RegState.empty : RegState := ⟨[], [], []⟩

/-- Source: `register_tool` in `available_tools/__init__.py`.
Calls the definition getter, raises on a name mismatch before any table is
touched, then stores the definition and executor and appends the initializer
unless `is_initializer_shared` holds and an identical (by identity) initializer
is already present. -/
def register_tool (tool_name : String) (definition_getter : Unit → ToolDefinition)
    (executor : Executor) (init_func : Option Initializer)
    (is_initializer_shared : Bool) (st : RegState) : Except String RegState :=
  let definition := definition_getter ()
  if tool_name ≠ definition.tool_name then
    .error ("Tool name mismatch for " ++ tool_name ++ ": definition has "
            ++ definition.tool_name)
  else
    .ok { tool_definitions := dictInsert st.tool_definitions tool_name definition
          tool_executors := dictInsert st.tool_executors tool_name executor
          tool_initializers :=
            match init_func with
            | none => st.tool_initializers
            | some i =>
              if !is_initializer_shared
                  || !(st.tool_initializers.any (fun j => j.ident == i.ident)) then
                st.tool_initializers ++ [i]
              else
                st.tool_initializers }

/-- Source: `get_all_tool_definitions` — `list(TOOL_DEFINITIONS.values())`. -/
def get_all_tool_definitions (st : RegState) : List ToolDefinition :=
  st.tool_definitions.map (fun p => p.2)

/-- Source: `get_tool_executor` — `TOOL_EXECUTORS.get(tool_name)`. -/
def get_tool_executor (st : RegState) (tool_name : String) : Option Executor :=
  dictGet st.tool_executors tool_name

/-- The first loop of `initialize_all_tools`: builds `unique_initializers` by
walking `TOOL_INITIALIZERS` and appending each callable not already present
(`in` compares callables by identity, here by `ident`).  `seen` carries the
identities already in the accumulated unique list. -/
def dedupInitializers (seen : List Nat) : List Initializer → List Initializer
  | [] => []
  | i :: rest =>
    if i.ident ∈ seen then dedupInitializers seen rest
    else i :: dedupInitializers (i.ident :: seen) rest

/-- `unique_initializers` as computed by `initialize_all_tools`. -/
def unique_initializers (st : RegState) : List Initializer :=
  dedupInitializers [] st.tool_initializers

/-- One invocation performed by `initialize_all_tools`: which initializer was
called and how the call ended (an `Except.error` result is the caught and
logged exception). -/
structure InitEvent where
  initId : Nat
  fname : String
  result : Except String Unit

/-- The second loop of `initialize_all_tools`: call each unique initializer in
order; a raising call is caught by the `try/except` (only logged), and the
loop continues with the next one. -/
def runInitializers : List Initializer → List InitEvent
  | [] => []
  | i :: rest =>
    match i.run () with
    | .ok () => ⟨i.ident, i.fname, .ok ()⟩ :: runInitializers rest
    | .error e => ⟨i.ident, i.fname, .error e⟩ :: runInitializers rest

/-- Source: `initialize_all_tools` — dedup pass then the guarded invocation
loop; returns the sequence of invocations actually performed. -/
def initialize_all_tools (st : RegState) : List InitEvent :=
  runInitializers (unique_initializers st)

/-- One `register_tool(...)` call site (the module performs four of them when
it is imported; the claims quantify over arbitrary passes). -/
structure RegCmd where
  tool_name : String
  definition_getter : Unit → ToolDefinition
  executor : Executor
  init_func : Option Initializer
  is_initializer_shared : Bool

/-- Effect of one `register_tool` call on the module state: a raising call
leaves every table untouched (the source raises before mutating). -/
def applyRegCmd (st : RegState) (c : RegCmd) : RegState :=
  match register_tool c.tool_name c.definition_getter c.executor c.init_func
      c.is_initializer_shared st with
  | .ok st' => st'
  | .error _ => st

/-- A registration pass: run a sequence of `register_tool` calls against the
freshly loaded (empty) module state. -/
def run_registration_pass (cmds : List RegCmd) : RegState :=
  cmds.foldl applyRegCmd RegState.empty

/- ---------------------------------------------------------------------------
Dispatcher registry: `toolkit/mcp_server/tool_registry.py`.
--------------------------------------------------------------------------- -/

/-- Source: `class RegisteredTool` in `tool_registry.py`. -/
structure RegisteredTool where
  name : String
  definition : ToolDefinition
  execute_func : Executor

/-- The module-level `_tool_registry: Dict[str, RegisteredTool]`. -/
abbrev ToolRegistry : Type := List (String × RegisteredTool)

/-- Source: the registration loop of `discover_and_register_tools` — for each
`(tool_name, definition)` in `AVAILABLE_TOOL_DEFINITIONS`, look up the executor
in `AVAILABLE_TOOL_EXECUTORS` and store a `RegisteredTool`; a name with no
executor is skipped with a warning.  Starts from the reset (empty) registry. -/
def discover_and_register_tools (st : RegState) : ToolRegistry :=
  st.tool_definitions.foldl
    (fun reg p =>
      match dictGet st.tool_executors p.1 with
      | some ex => dictInsert reg p.1 ⟨p.1, p.2, ex⟩
      | none => reg)
    []

/-- The failure-shaped Invocation Outcome dict literal used by `call_tool`
(and, per the spec, by every tool's deliberate failure path). -/
def mkFailureOutcome (e : String) : JValue :=
  .obj [("status", .str "failure"), ("output", .null), ("error", .str e)]

/-- The success-shaped Invocation Outcome dict of spec section 3. -/
def mkSuccessOutcome (payload : JValue) : JValue :=
  .obj [("status", .str "success"), ("output", payload), ("error", .null)]

/-- Payload returned by `call_tool` together with the log of executors it
actually invoked (`[]` or the one tool name). -/
structure CallResult where
  payload : JValue
  invoked : List String

/-- Source: `call_tool` in `tool_registry.py`.  A found tool's executor is
awaited inside `try/except`: an exception becomes the internal-error failure
outcome.  An unknown tool is NOT an exception path: the function returns a
failure-outcome dict (a truthy value) without invoking anything. -/
def call_tool (reg : ToolRegistry) (tool_name : String) (inputs : JValue) :
    CallResult :=
  match dictGet reg tool_name with
  | some tool =>
    match tool.execute_func inputs with
    | .returns v => ⟨v, [tool_name]⟩
    | .raises e =>
      ⟨mkFailureOutcome ("Internal error during \x27" ++ tool_name
          ++ "\x27 execution: " ++ e), [tool_name]⟩
  | none =>
    ⟨mkFailureOutcome ("Tool \x27" ++ tool_name
        ++ "\x27 not found or not executable."), []⟩

/- ---------------------------------------------------------------------------
JSON-RPC surface: `toolkit/mcp_server/main.py`.
--------------------------------------------------------------------------- -/

/-- Source: `class JsonRpcRequest(BaseModel)`; `params = None` models both an
absent and a null `params` member (pydantic parses both to `None`); `id` is
a JSON value (`.null` when absent). -/
structure JsonRpcRequest where
  method : String
  params : Option JValue
  id : JValue

/-- The JSON-RPC error object `{code, message}`. -/
structure RpcError where
  code : Int
  message : String

/-- Source: `class JsonRpcResponse(BaseModel)` — at most one of
`result`/`error` is populated by the handler. -/
structure JsonRpcResponse where
  result : Option JValue
  error : Option RpcError
  id : JValue

/-- Error message of the `params` envelope check in `mcp_rpc_handler`. -/
def invalid_params_message : String :=
  "Invalid params: \x27params\x27 must be an object for mcp_call_tool."

/-- Error message of the `tool_id` envelope check. -/
def invalid_tool_id_message : String :=
  "Invalid params: \x27tool_id\x27 is missing or not a string."

/-- Error message of the `inputs` envelope check. -/
def invalid_inputs_message : String :=
  "Invalid params: \x27inputs\x27 is missing or not an object."

/-- The −32601 message of the falsy-payload branch after `call_tool`. -/
def tool_unavailable_message (tool_name : String) : String :=
  "Method not found or error: Tool with id \x27" ++ tool_name
    ++ "\x27 is not available or failed execution."

/-- Source: `mcp_rpc_handler` in `main.py`, together with the invocation log
threaded out of `call_tool`.  The branch structure mirrors the source:
`mcp_list_tools`; then `mcp_call_tool` with its three sequential envelope
checks (`not request.params or not isinstance(request.params, dict)`;
`not tool_name or not isinstance(tool_name, str)`;
`inputs is None or not isinstance(inputs, dict)`), the `call_tool` await and
the truthiness test on its payload; then the unknown-method branch. -/
def mcp_rpc_handler (defs : List ToolDefinition) (reg : ToolRegistry)
    (request : JsonRpcRequest) : JsonRpcResponse × List String :=
  if request.method == "mcp_list_tools" then
    (⟨some (.arr ((defs.map ToolDefinition.dump))), none, request.id⟩, [])
  else if request.method == "mcp_call_tool" then
    match request.params with
    | some (JValue.obj fields) =>
      if fields.isEmpty then
        -- an empty dict is falsy: `not request.params` fires
        (⟨none, some ⟨-32602, invalid_params_message⟩, request.id⟩, [])
      else
        match getField fields "tool_id" with
        | some (JValue.str tool_name) =>
          if tool_name == "" then
            -- an empty string is falsy: `not tool_name` fires
            (⟨none, some ⟨-32602, invalid_tool_id_message⟩, request.id⟩, [])
          else
            match getField fields "inputs" with
            | some (JValue.obj input_fields) =>
              let c := call_tool reg tool_name (JValue.obj input_fields)
              if c.payload.isTruthy then
                (⟨some c.payload, none, request.id⟩, c.invoked)
              else
                (⟨none, some ⟨-32601, tool_unavailable_message tool_name⟩,
                  request.id⟩, c.invoked)
            | _ =>
              (⟨none, some ⟨-32602, invalid_inputs_message⟩, request.id⟩, [])
        | _ =>
          (⟨none, some ⟨-32602, invalid_tool_id_message⟩, request.id⟩, [])
    | _ =>
      (⟨none, some ⟨-32602, invalid_params_message⟩, request.id⟩, [])
  else
    (⟨none, some ⟨-32601, "Method \x27" ++ request.method ++ "\x27 not found."⟩,
      request.id⟩, [])

/- ---------------------------------------------------------------------------
Tool implementations.  The third-party clients are opaque dependencies behind
an `invoke(request) -> result-or-exception` contract.
--------------------------------------------------------------------------- -/

/-- A Python exception escaping a client call: either a
`googleapiclient.errors.HttpError` (status, reason, decoded content — an empty
content string models falsy `error.content`) or any other exception
(its `str(e)`). -/
inductive PyError where
  | http (status : Int) (reason : String) (content : String)
  | other (msg : String)

/-- The Google Sheets `values().get(**params).execute()` call: from the
request parameters to either the API's result dict (its fields) or a raised
exception. -/
def SheetsGetClient : Type := List (String × JValue) → Except PyError (List (String × JValue))

/-- Source: `class ReadRequest(BaseModel)` in `google_sheets_models.py`. -/
structure ReadRequest where
  spreadsheet_id : String
  range : String
  major_dimension : Option String
  value_render_option : Option String
  date_time_render_option : Option String

/-- Pydantic extraction of an `Optional[str]` field: absent or null gives the
`None` default, a string validates, anything else raises a validation error. -/
def getOptStrField (fields : List (String × JValue)) (k : String) :
    Except String (Option String) :=
  match getField fields k with
  | none => .ok none
  | some .null => .ok none
  | some (.str s) => .ok (some s)
  | some _ => .error ("validation error for field " ++ k)

/-- Pydantic construction `ReadRequest(**inputs)`: the two required string
fields must be present strings, the three optional ones must validate. -/
def parseReadRequest (fields : List (String × JValue)) : Except String ReadRequest :=
  match getField fields "spreadsheet_id", getField fields "range" with
  | some (.str sid), some (.str rng) =>
    match getOptStrField fields "major_dimension",
        getOptStrField fields "value_render_option",
        getOptStrField fields "date_time_render_option" with
    | .ok md, .ok vro, .ok dtro => .ok ⟨sid, rng, md, vro, dtro⟩
    | .error e, _, _ => .error e
    | _, .error e, _ => .error e
    | _, _, .error e => .error e
  | _, _ => .error "validation error for ReadRequest"

/-- Python `if opt:` on an `Optional[str]` attribute: truthy iff present and
non-empty. -/
def optStrTruthy : Option String → Bool
  | some s => !(s == "")
  | none => false

/-- The `request_params` dict built by `execute_google_sheets_read`: the two
mandatory entries plus each optional rendering parameter guarded by a Python
truthiness test on the attribute. -/
def readRequestParams (r : ReadRequest) : List (String × JValue) :=
  [("spreadsheetId", .str r.spreadsheet_id), ("range", .str r.range)]
    ++ (if optStrTruthy r.major_dimension then
          [("majorDimension", .str (r.major_dimension.getD ""))] else [])
    ++ (if optStrTruthy r.value_render_option then
          [("valueRenderOption", .str (r.value_render_option.getD ""))] else [])
    ++ (if optStrTruthy r.date_time_render_option then
          [("dateTimeRenderOption", .str (r.date_time_render_option.getD ""))] else [])

/-- Membership test `cell not in [None, "", " "]` negated: a cell equal (by
Python `==` on JSON values) to `None`, `""` or `" "`. -/
def isBlankCell : JValue → Bool
  | .null => true
  | .str s => s == "" || s == " "
  | _ => false

/-- The `has_meaningful_data` generator expression: some row has some cell not
in `[None, "", " "]`.  The API contract makes `values` a list of lists; a
non-list row would raise inside the enclosing `try` in the source. -/
def hasMeaningfulData : JValue → Bool
  | .arr rows =>
    rows.any (fun row =>
      match row with
      | .arr cells => cells.any (fun c => !(isBlankCell c))
      | _ => false)
  | _ => false

/-- Rendering of an `HttpError` by the read tool's `except HttpError` branch:
`f"API error (read): {status} - {reason}. Details: {content or 'N/A'}"`. -/
def readHttpErrorMessage (status : Int) (reason content : String) : String :=
  "API error (read): " ++ toString status ++ " - " ++ reason ++ ". Details: "
    ++ (if content == "" then "N/A" else content)

/-- The long guidance message of the no-meaningful-data branch. -/
def noMeaningfulDataMessage (rng : String) : String :=
  "No meaningful data found in spreadsheet range. Check: 1. Range includes sheet name (e.g., \x27Sheet1!A1:Z100\x27)\n2. Cells contain non-empty values\n3. Range contains actual data (current range: " ++ rng ++ ")"

/-- Source: `execute_google_sheets_read` in `google_sheets_tool.py`.
`service` is the module-level `google_sheets_service` after the lazy
`initialize_google_sheets_tool()` attempt at the top of the function (`none`
when initialization left it unset).  Note the empty-`values` branch of the
source returns a dict with only the `status` and `error` keys — no `output`
key — unlike every other return in the file. -/
def execute_google_sheets_read (service : Option SheetsGetClient)
    (inputs : List (String × JValue)) : JValue :=
  match service with
  | none => mkFailureOutcome "Tool error: Google Sheets client not initialized."
  | some client =>
    match parseReadRequest inputs with
    | .error e => mkFailureOutcome ("Invalid input for read: " ++ e)
    | .ok read_request =>
      match client (readRequestParams read_request) with
      | .error (.http status reason content) =>
        mkFailureOutcome (readHttpErrorMessage status reason content)
      | .error (.other e) =>
        mkFailureOutcome ("Tool execution error (read): " ++ e)
      | .ok result =>
        let output_values := (getField result "values").getD (.arr [])
        if !output_values.isTruthy then
          .obj [("status", .str "failure"), ("error", .str "Empty spreadsheet data")]
        else if !(hasMeaningfulData output_values) then
          mkFailureOutcome (noMeaningfulDataMessage read_request.range)
        else
          mkSuccessOutcome (.obj
            [("spreadsheet_id", .str read_request.spreadsheet_id),
             ("range", (getField result "range").getD .null),
             ("major_dimension", (getField result "majorDimension").getD .null),
             ("values", output_values)])

/- ---------------------------------------------------------------------------
Concrete sample data used by witnesses and counterexamples.
--------------------------------------------------------------------------- -/

/-- A minimal output schema for sample definitions. -/
def sampleOutput : ToolOutputSchemaDefinition := ⟨"object", none, none, none, none⟩

/-- A minimal tool definition carrying a given name. -/
def sampleDefinition (n : String) : ToolDefinition := ⟨n, "a sample tool", [], sampleOutput⟩

/-- An executor returning a fixed success outcome. -/
def sampleExecutor : Executor := fun _ => .returns (mkSuccessOutcome (.num 1))

/- ---------------------------------------------------------------------------
Claim theorems.
--------------------------------------------------------------------------- -/

/-- C1: evaluation of the dispatcher at a validated `mcp_call_tool` request
naming a tool absent from the registry.  The claim (and spec section 4.3
step 4) requires a JSON-RPC error with code −32601 naming the tool; the code
instead returns a success envelope (`error` is `none`) whose `result` is the
failure outcome produced by `call_tool`, because that outcome is a truthy
dict and main.py's −32601 branch only fires on a falsy payload.  The empty
invocation log confirms no executor ran. -/
theorem c1_unknown_tool_yields_success_envelope :
    mcp_rpc_handler [] ([] : ToolRegistry)
        ⟨"mcp_call_tool",
         some (.obj [("tool_id", .str "nonexistent"), ("inputs", .obj [])]),
         .str "a"⟩ =
      (⟨some (mkFailureOutcome
          "Tool \x27nonexistent\x27 not found or not executable."),
        none, .str "a"⟩, []) := by
  rfl

/-- C3: evaluation of `execute_google_sheets_read` at an input whose API call
succeeds with a result carrying no `values` (an empty range read).  The
returned record has only the `status` and `error` keys — the `output` key
required by the Invocation Outcome contract (spec section 3) is absent, unlike
every other return statement of the four executors. -/
theorem c3_read_empty_values_record_lacks_output_key :
    execute_google_sheets_read (some (fun _ => .ok []))
        [("spreadsheet_id", .str "sheet1"), ("range", .str "Sheet1!A1:B2")] =
      .obj [("status", .str "failure"), ("error", .str "Empty spreadsheet data")]
    ∧ getField [("status", JValue.str "failure"),
        ("error", JValue.str "Empty spreadsheet data")] "output" = none := by
  exact ⟨rfl, rfl⟩

/-- C6: a `register_tool` call whose produced definition's `tool_name` differs
from the registration key raises the mismatch `ValueError` (returns
`Except.error` with the exact message), and the registration leaves the module
state — all three tables, hence the output of `list_tools` — exactly
unchanged. -/
theorem c6_name_mismatch_registration_rejected
    (tool_name : String) (dg : Unit → ToolDefinition) (ex : Executor)
    (init_func : Option Initializer) (shared : Bool) (st : RegState)
    (h : (dg ()).tool_name ≠ tool_name) :
    register_tool tool_name dg ex init_func shared st =
      Except.error ("Tool name mismatch for " ++ tool_name
        ++ ": definition has " ++ (dg ()).tool_name)
    ∧ applyRegCmd st ⟨tool_name, dg, ex, init_func, shared⟩ = st := by
  have hne : tool_name ≠ (dg ()).tool_name := Ne.symm h
  constructor
  · simp only [register_tool]
    rw [if_pos hne]
  · simp only [applyRegCmd, register_tool]
    rw [if_pos hne]

/-- Closed instance of `c6_name_mismatch_registration_rejected`: registering
under key `key` a definition named `other` is rejected with the mismatch
message and leaves the empty state unchanged. -/
theorem c6_name_mismatch_registration_rejected_witness :
    register_tool "key" (fun _ => sampleDefinition "other") sampleExecutor
        none false RegState.empty =
      Except.error "Tool name mismatch for key: definition has other"
    ∧ applyRegCmd RegState.empty
        ⟨"key", fun _ => sampleDefinition "other", sampleExecutor, none, false⟩ =
      RegState.empty :=
  c6_name_mismatch_registration_rejected "key" (fun _ => sampleDefinition "other")
    sampleExecutor none false RegState.empty (by decide)

/-- An executor that raises with a fixed message. -/
def raisingExecutor : Executor := fun _ => .raises "boom"

/-- An executor that returns Python `None`. -/
def noneExecutor : Executor := fun _ => .returns .null

/-- A `tool_id` field can only be found in a non-empty field list. -/
theorem getField_some_ne_nil {fields : List (String × JValue)} {k : String}
    {v : JValue} (h : getField fields k = some v) : fields.isEmpty = false := by
  cases fields with
  | nil => simp [getField] at h
  | cons a l => rfl

/-- C2: a validated `mcp_call_tool` request on a registered tool whose
executor returns an Invocation Outcome record — of either status — produces a
JSON-RPC success envelope whose `result` is exactly that record, with no
`error` field; a failure-status outcome is NOT turned into a JSON-RPC error.
The log records the single executor invocation. -/
theorem c2_outcome_returned_verbatim_as_result
    (defs : List ToolDefinition) (reg : ToolRegistry)
    (fields input_fields : List (String × JValue)) (tool_name : String)
    (tool : RegisteredTool) (v : JValue) (rid : JValue)
    (htid : getField fields "tool_id" = some (.str tool_name))
    (hne : tool_name ≠ "")
    (hin : getField fields "inputs" = some (.obj input_fields))
    (hreg : dictGet reg tool_name = some tool)
    (hexec : tool.execute_func (.obj input_fields) = .returns v)
    (houtcome : (∃ p, v = mkSuccessOutcome p) ∨ (∃ e, v = mkFailureOutcome e)) :
    mcp_rpc_handler defs reg ⟨"mcp_call_tool", some (.obj fields), rid⟩ =
      (⟨some v, none, rid⟩, [tool_name]) := by
  have hfe : fields.isEmpty = false := getField_some_ne_nil htid
  have hne' : (tool_name == "") = false := beq_eq_false_iff_ne.mpr hne
  have htruthy : v.isTruthy = true := by
    rcases houtcome with ⟨p, rfl⟩ | ⟨e, rfl⟩ <;> rfl
  simp [mcp_rpc_handler, call_tool, hfe, htid, hin, hne', hreg, hexec, htruthy]

/-- Closed instance of `c2_outcome_returned_verbatim_as_result` at a one-tool
registry whose executor returns a success outcome. -/
theorem c2_outcome_returned_verbatim_as_result_witness :
    mcp_rpc_handler [] [("t", ⟨"t", sampleDefinition "t", sampleExecutor⟩)]
        ⟨"mcp_call_tool",
         some (.obj [("tool_id", .str "t"), ("inputs", .obj [])]), .num 7⟩ =
      (⟨some (mkSuccessOutcome (.num 1)), none, .num 7⟩, ["t"]) :=
  c2_outcome_returned_verbatim_as_result []
    [("t", ⟨"t", sampleDefinition "t", sampleExecutor⟩)]
    [("tool_id", .str "t"), ("inputs", .obj [])] [] "t"
    ⟨"t", sampleDefinition "t", sampleExecutor⟩ (mkSuccessOutcome (.num 1))
    (.num 7) rfl (by decide) rfl rfl rfl (Or.inl ⟨.num 1, rfl⟩)

/-- C4: when the executor of a registered tool raises, `call_tool` catches the
exception and converts it into the internal-error failure outcome, and the
dispatcher wraps that record in a JSON-RPC success envelope (no `error`
field): the exception never reaches the JSON-RPC layer. -/
theorem c4_raising_executor_becomes_failure_outcome
    (defs : List ToolDefinition) (reg : ToolRegistry)
    (fields input_fields : List (String × JValue)) (tool_name : String)
    (tool : RegisteredTool) (e : String) (rid : JValue)
    (htid : getField fields "tool_id" = some (.str tool_name))
    (hne : tool_name ≠ "")
    (hin : getField fields "inputs" = some (.obj input_fields))
    (hreg : dictGet reg tool_name = some tool)
    (hexec : tool.execute_func (.obj input_fields) = .raises e) :
    mcp_rpc_handler defs reg ⟨"mcp_call_tool", some (.obj fields), rid⟩ =
      (⟨some (mkFailureOutcome ("Internal error during \x27" ++ tool_name
          ++ "\x27 execution: " ++ e)), none, rid⟩, [tool_name]) := by
  have hfe : fields.isEmpty = false := getField_some_ne_nil htid
  have hne' : (tool_name == "") = false := beq_eq_false_iff_ne.mpr hne
  have htruthy : (mkFailureOutcome ("Internal error during \x27" ++ tool_name
      ++ "\x27 execution: " ++ e)).isTruthy = true := rfl
  simp [mcp_rpc_handler, call_tool, hfe, htid, hin, hne', hreg, hexec, htruthy]

/-- Closed instance of `c4_raising_executor_becomes_failure_outcome` at a
one-tool registry whose executor raises `boom`. -/
theorem c4_raising_executor_becomes_failure_outcome_witness :
    mcp_rpc_handler [] [("t", ⟨"t", sampleDefinition "t", raisingExecutor⟩)]
        ⟨"mcp_call_tool",
         some (.obj [("tool_id", .str "t"), ("inputs", .obj [])]), .null⟩ =
      (⟨some (mkFailureOutcome
          "Internal error during \x27t\x27 execution: boom"), none, .null⟩,
       ["t"]) :=
  c4_raising_executor_becomes_failure_outcome []
    [("t", ⟨"t", sampleDefinition "t", raisingExecutor⟩)]
    [("tool_id", .str "t"), ("inputs", .obj [])] [] "t"
    ⟨"t", sampleDefinition "t", raisingExecutor⟩ "boom" .null
    rfl (by decide) rfl rfl rfl

/-- C9: when a registered tool's executor returns a falsy value (`None` or an
empty dict) without raising, the dispatcher answers with the −32601
"not available or failed execution" JSON-RPC error instead of a success
envelope, even though the executor was actually invoked (the log records the
invocation). -/
theorem c9_falsy_payload_yields_32601_error
    (defs : List ToolDefinition) (reg : ToolRegistry)
    (fields input_fields : List (String × JValue)) (tool_name : String)
    (tool : RegisteredTool) (v : JValue) (rid : JValue)
    (htid : getField fields "tool_id" = some (.str tool_name))
    (hne : tool_name ≠ "")
    (hin : getField fields "inputs" = some (.obj input_fields))
    (hreg : dictGet reg tool_name = some tool)
    (hexec : tool.execute_func (.obj input_fields) = .returns v)
    (hfalsy : v = .null ∨ v = .obj []) :
    mcp_rpc_handler defs reg ⟨"mcp_call_tool", some (.obj fields), rid⟩ =
      (⟨none, some ⟨-32601, tool_unavailable_message tool_name⟩, rid⟩,
       [tool_name]) := by
  have hfe : fields.isEmpty = false := getField_some_ne_nil htid
  have hne' : (tool_name == "") = false := beq_eq_false_iff_ne.mpr hne
  have hfalse : v.isTruthy = false := by
    rcases hfalsy with rfl | rfl <;> rfl
  simp [mcp_rpc_handler, call_tool, hfe, htid, hin, hne', hreg, hexec, hfalse]

/-- Closed instance of `c9_falsy_payload_yields_32601_error` at a one-tool
registry whose executor returns `None`. -/
theorem c9_falsy_payload_yields_32601_error_witness :
    mcp_rpc_handler [] [("t", ⟨"t", sampleDefinition "t", noneExecutor⟩)]
        ⟨"mcp_call_tool",
         some (.obj [("tool_id", .str "t"), ("inputs", .obj [])]), .num 3⟩ =
      (⟨none, some ⟨-32601, tool_unavailable_message "t"⟩, .num 3⟩, ["t"]) :=
  c9_falsy_payload_yields_32601_error []
    [("t", ⟨"t", sampleDefinition "t", noneExecutor⟩)]
    [("tool_id", .str "t"), ("inputs", .obj [])] [] "t"
    ⟨"t", sampleDefinition "t", noneExecutor⟩ .null (.num 3)
    rfl (by decide) rfl rfl rfl (Or.inl rfl)

/- ---------------------------------------------------------------------------
Envelope validation (claim C5).  The three rejection conditions are stated
twice: as the exact Boolean tests the source performs (`...Rejected`, used to
drive the handler reduction lemmas) and as the claim's own wording
(`ParamsMissingOrNonObject` etc.), with conversion lemmas between them.
--------------------------------------------------------------------------- -/

/-- The source test `not request.params or not isinstance(request.params, dict)`. -/
def paramsFalsyOrNonDict : Option JValue → Bool
  | none => true
  | some (.obj fs) => fs.isEmpty
  | some _ => true

/-- The source test `not tool_name or not isinstance(tool_name, str)` on the
value of `params.get("tool_id")`. -/
def toolIdRejectedBy : Option JValue → Bool
  | some (.str s) => s == ""
  | _ => true

/-- The source test `inputs is None or not isinstance(inputs, dict)` on the
value of `params.get("inputs")`. -/
def inputsRejectedBy : Option JValue → Bool
  | some (.obj _) => false
  | _ => true

/-- Claim wording: `params` missing or not an object. -/
def ParamsMissingOrNonObject (ps : Option JValue) : Prop :=
  ps = none ∨ ∃ v, ps = some v ∧ v.isObj = false

/-- Claim wording: `tool_id` missing or not a string. -/
def ToolIdMissingOrNonString (fs : List (String × JValue)) : Prop :=
  getField fs "tool_id" = none
    ∨ ∃ v, getField fs "tool_id" = some v ∧ v.isStr = false

/-- Claim wording: `inputs` missing, null, or not an object. -/
def InputsMissingNullOrNonObject (fs : List (String × JValue)) : Prop :=
  getField fs "inputs" = none ∨ getField fs "inputs" = some .null
    ∨ ∃ v, getField fs "inputs" = some v ∧ v.isObj = false

/-- Handler reduction: a falsy or non-dict `params` is answered with the
−32602 params message and nothing is invoked. -/
theorem handler_rejects_params (defs : List ToolDefinition) (reg : ToolRegistry)
    (ps : Option JValue) (rid : JValue) (h : paramsFalsyOrNonDict ps = true) :
    mcp_rpc_handler defs reg ⟨"mcp_call_tool", ps, rid⟩ =
      (⟨none, some ⟨-32602, invalid_params_message⟩, rid⟩, []) := by
  match ps with
  | none => rfl
  | some (.obj fs) =>
    simp only [paramsFalsyOrNonDict] at h
    simp [mcp_rpc_handler, h]
  | some .null => rfl
  | some (.bool b) => rfl
  | some (.num n) => rfl
  | some (.str s) => rfl
  | some (.arr xs) => rfl

/-- Handler reduction: with a truthy dict `params`, a missing, non-string or
falsy `tool_id` is answered with the −32602 tool_id message. -/
theorem handler_rejects_tool_id (defs : List ToolDefinition) (reg : ToolRegistry)
    (fs : List (String × JValue)) (rid : JValue)
    (hfe : fs.isEmpty = false) (h : toolIdRejectedBy (getField fs "tool_id") = true) :
    mcp_rpc_handler defs reg ⟨"mcp_call_tool", some (.obj fs), rid⟩ =
      (⟨none, some ⟨-32602, invalid_tool_id_message⟩, rid⟩, []) := by
  match hv : getField fs "tool_id" with
  | none => simp [mcp_rpc_handler, hfe, hv]
  | some .null => simp [mcp_rpc_handler, hfe, hv]
  | some (.bool b) => simp [mcp_rpc_handler, hfe, hv]
  | some (.num n) => simp [mcp_rpc_handler, hfe, hv]
  | some (.arr xs) => simp [mcp_rpc_handler, hfe, hv]
  | some (.obj ofs) => simp [mcp_rpc_handler, hfe, hv]
  | some (.str s) =>
    rw [hv] at h
    simp only [toolIdRejectedBy] at h
    simp [mcp_rpc_handler, hfe, hv, h]

/-- Handler reduction: with a truthy dict `params` and a truthy string
`tool_id`, a missing, null or non-dict `inputs` is answered with the −32602
inputs message. -/
theorem handler_rejects_inputs (defs : List ToolDefinition) (reg : ToolRegistry)
    (fs : List (String × JValue)) (tn : String) (rid : JValue)
    (htid : getField fs "tool_id" = some (.str tn)) (hne : tn ≠ "")
    (h : inputsRejectedBy (getField fs "inputs") = true) :
    mcp_rpc_handler defs reg ⟨"mcp_call_tool", some (.obj fs), rid⟩ =
      (⟨none, some ⟨-32602, invalid_inputs_message⟩, rid⟩, []) := by
  have hfe : fs.isEmpty = false := getField_some_ne_nil htid
  have hne' : (tn == "") = false := beq_eq_false_iff_ne.mpr hne
  match hv : getField fs "inputs" with
  | none => simp [mcp_rpc_handler, hfe, htid, hne', hv]
  | some .null => simp [mcp_rpc_handler, hfe, htid, hne', hv]
  | some (.bool b) => simp [mcp_rpc_handler, hfe, htid, hne', hv]
  | some (.num n) => simp [mcp_rpc_handler, hfe, htid, hne', hv]
  | some (.str s) => simp [mcp_rpc_handler, hfe, htid, hne', hv]
  | some (.arr xs) => simp [mcp_rpc_handler, hfe, htid, hne', hv]
  | some (.obj ofs) =>
    rw [hv] at h
    simp [inputsRejectedBy] at h

/-- The claim's params condition implies the source's rejection test. -/
theorem paramsRejected_of_claim {ps : Option JValue}
    (h : ParamsMissingOrNonObject ps) : paramsFalsyOrNonDict ps = true := by
  rcases h with rfl | ⟨v, rfl, hv⟩
  · rfl
  · cases v <;> simp_all [JValue.isObj, paramsFalsyOrNonDict]

/-- The claim's tool_id condition implies the source's rejection test. -/
theorem toolIdRejected_of_claim {fs : List (String × JValue)}
    (h : ToolIdMissingOrNonString fs) :
    toolIdRejectedBy (getField fs "tool_id") = true := by
  rcases h with hnone | ⟨v, hv, hstr⟩
  · rw [hnone]; rfl
  · rw [hv]; cases v <;> simp_all [JValue.isStr, toolIdRejectedBy]

/-- The claim's inputs condition implies the source's rejection test. -/
theorem inputsRejected_of_claim {fs : List (String × JValue)}
    (h : InputsMissingNullOrNonObject fs) :
    inputsRejectedBy (getField fs "inputs") = true := by
  rcases h with hnone | hnull | ⟨v, hv, hobj⟩
  · rw [hnone]; rfl
  · rw [hnull]; rfl
  · rw [hv]; cases v <;> simp_all [JValue.isObj, inputsRejectedBy]

/-- Handler reduction: once the three envelope checks pass, the response is
the dispatch on the truthiness of the `call_tool` payload. -/
theorem handler_valid_envelope (defs : List ToolDefinition) (reg : ToolRegistry)
    (fs ifs : List (String × JValue)) (tn : String) (rid : JValue)
    (htid : getField fs "tool_id" = some (.str tn)) (hne : tn ≠ "")
    (hin : getField fs "inputs" = some (.obj ifs)) :
    mcp_rpc_handler defs reg ⟨"mcp_call_tool", some (.obj fs), rid⟩ =
      (if (call_tool reg tn (.obj ifs)).payload.isTruthy then
        (⟨some (call_tool reg tn (.obj ifs)).payload, none, rid⟩,
         (call_tool reg tn (.obj ifs)).invoked)
      else
        (⟨none, some ⟨-32601, tool_unavailable_message tn⟩, rid⟩,
         (call_tool reg tn (.obj ifs)).invoked)) := by
  have hfe : fs.isEmpty = false := getField_some_ne_nil htid
  have hne' : (tn == "") = false := beq_eq_false_iff_ne.mpr hne
  simp [mcp_rpc_handler, hfe, htid, hne', hin]

/-- C5: envelope validation of `mcp_call_tool`.
Part 1: any request whose `params` is missing or not an object, or whose
`tool_id` is missing or not a string, or whose `inputs` is missing, null or
not an object, is answered with a −32602 error and no executor is invoked.
Parts 2–4: the checks fire in source order — a bad `params` yields the params
message; with a truthy `params` dict a bad `tool_id` yields the tool_id
message whatever `inputs` is; with a valid `tool_id` a bad `inputs` yields the
inputs message.  Part 5: the three messages are pairwise distinct.
Part 6: an empty object is accepted as `inputs` — the request then reaches
the call stage and can only produce a −32601 error, never −32602. -/
theorem c5_envelope_validation :
    (∀ (defs : List ToolDefinition) (reg : ToolRegistry) (ps : Option JValue)
        (rid : JValue),
      (ParamsMissingOrNonObject ps
        ∨ (∃ fs, ps = some (.obj fs) ∧ ToolIdMissingOrNonString fs)
        ∨ (∃ fs, ps = some (.obj fs) ∧ InputsMissingNullOrNonObject fs)) →
      ∃ m, mcp_rpc_handler defs reg ⟨"mcp_call_tool", ps, rid⟩ =
        (⟨none, some ⟨-32602, m⟩, rid⟩, []))
    ∧ (∀ (defs : List ToolDefinition) (reg : ToolRegistry) (ps : Option JValue)
        (rid : JValue), ParamsMissingOrNonObject ps →
      mcp_rpc_handler defs reg ⟨"mcp_call_tool", ps, rid⟩ =
        (⟨none, some ⟨-32602, invalid_params_message⟩, rid⟩, []))
    ∧ (∀ (defs : List ToolDefinition) (reg : ToolRegistry)
        (fs : List (String × JValue)) (rid : JValue),
      fs.isEmpty = false → ToolIdMissingOrNonString fs →
      mcp_rpc_handler defs reg ⟨"mcp_call_tool", some (.obj fs), rid⟩ =
        (⟨none, some ⟨-32602, invalid_tool_id_message⟩, rid⟩, []))
    ∧ (∀ (defs : List ToolDefinition) (reg : ToolRegistry)
        (fs : List (String × JValue)) (tn : String) (rid : JValue),
      getField fs "tool_id" = some (.str tn) → tn ≠ "" →
      InputsMissingNullOrNonObject fs →
      mcp_rpc_handler defs reg ⟨"mcp_call_tool", some (.obj fs), rid⟩ =
        (⟨none, some ⟨-32602, invalid_inputs_message⟩, rid⟩, []))
    ∧ (invalid_params_message ≠ invalid_tool_id_message
       ∧ invalid_params_message ≠ invalid_inputs_message
       ∧ invalid_tool_id_message ≠ invalid_inputs_message)
    ∧ (∀ (defs : List ToolDefinition) (reg : ToolRegistry)
        (fs : List (String × JValue)) (tn : String) (rid : JValue) (e : RpcError),
      getField fs "tool_id" = some (.str tn) → tn ≠ "" →
      getField fs "inputs" = some (.obj []) →
      (mcp_rpc_handler defs reg ⟨"mcp_call_tool", some (.obj fs), rid⟩).1.error
        = some e →
      e.code = -32601) := by
  refine ⟨?_, ?_, ?_, ?_, ⟨by decide, by decide, by decide⟩, ?_⟩
  · intro defs reg ps rid h
    rcases h with hp | ⟨fs, rfl, ht⟩ | ⟨fs, rfl, hi⟩
    · exact ⟨_, handler_rejects_params defs reg ps rid (paramsRejected_of_claim hp)⟩
    · cases hfe : fs.isEmpty with
      | true =>
        exact ⟨_, handler_rejects_params defs reg _ rid
          (by simp [paramsFalsyOrNonDict, hfe])⟩
      | false =>
        exact ⟨_, handler_rejects_tool_id defs reg fs rid hfe
          (toolIdRejected_of_claim ht)⟩
    · cases hfe : fs.isEmpty with
      | true =>
        exact ⟨_, handler_rejects_params defs reg _ rid
          (by simp [paramsFalsyOrNonDict, hfe])⟩
      | false =>
        match hv : getField fs "tool_id" with
        | none =>
          exact ⟨_, handler_rejects_tool_id defs reg fs rid hfe (by rw [hv]; rfl)⟩
        | some .null =>
          exact ⟨_, handler_rejects_tool_id defs reg fs rid hfe (by rw [hv]; rfl)⟩
        | some (.bool b) =>
          exact ⟨_, handler_rejects_tool_id defs reg fs rid hfe (by rw [hv]; rfl)⟩
        | some (.num n) =>
          exact ⟨_, handler_rejects_tool_id defs reg fs rid hfe (by rw [hv]; rfl)⟩
        | some (.arr xs) =>
          exact ⟨_, handler_rejects_tool_id defs reg fs rid hfe (by rw [hv]; rfl)⟩
        | some (.obj ofs) =>
          exact ⟨_, handler_rejects_tool_id defs reg fs rid hfe (by rw [hv]; rfl)⟩
        | some (.str s) =>
          by_cases hs : s = ""
          · exact ⟨_, handler_rejects_tool_id defs reg fs rid hfe
              (by rw [hv, hs]; rfl)⟩
          · exact ⟨_, handler_rejects_inputs defs reg fs s rid hv hs
              (inputsRejected_of_claim hi)⟩
  · intro defs reg ps rid h
    exact handler_rejects_params defs reg ps rid (paramsRejected_of_claim h)
  · intro defs reg fs rid hfe h
    exact handler_rejects_tool_id defs reg fs rid hfe (toolIdRejected_of_claim h)
  · intro defs reg fs tn rid htid hne h
    exact handler_rejects_inputs defs reg fs tn rid htid hne
      (inputsRejected_of_claim h)
  · intro defs reg fs tn rid e htid hne hin hresp
    rw [handler_valid_envelope defs reg fs [] tn rid htid hne hin] at hresp
    by_cases htr : (call_tool reg tn (.obj [])).payload.isTruthy
    · rw [if_pos htr] at hresp
      exact absurd hresp (by simp)
    · rw [if_neg htr] at hresp
      simp only [Option.some.injEq] at hresp
      rw [← hresp]

/-- Closed instance of `c5_envelope_validation`: each envelope check fired at
a concrete request, and a concrete exercise of the empty-`inputs` acceptance
through a tool whose executor returns `None`. -/
theorem c5_envelope_validation_witness :
    (∃ m, mcp_rpc_handler [] [] ⟨"mcp_call_tool", none, .null⟩ =
      (⟨none, some ⟨-32602, m⟩, .null⟩, []))
    ∧ mcp_rpc_handler [] [] ⟨"mcp_call_tool", none, .null⟩ =
      (⟨none, some ⟨-32602, invalid_params_message⟩, .null⟩, [])
    ∧ mcp_rpc_handler [] [] ⟨"mcp_call_tool", some (.obj [("x", .num 1)]), .null⟩ =
      (⟨none, some ⟨-32602, invalid_tool_id_message⟩, .null⟩, [])
    ∧ mcp_rpc_handler [] []
        ⟨"mcp_call_tool",
         some (.obj [("tool_id", .str "t"), ("inputs", .null)]), .null⟩ =
      (⟨none, some ⟨-32602, invalid_inputs_message⟩, .null⟩, [])
    ∧ RpcError.code ⟨-32601, tool_unavailable_message "t"⟩ = -32601 := by
  refine ⟨?_, ?_, ?_, ?_, ?_⟩
  · exact c5_envelope_validation.1 [] [] none .null (Or.inl (Or.inl rfl))
  · exact c5_envelope_validation.2.1 [] [] none .null (Or.inl rfl)
  · exact c5_envelope_validation.2.2.1 [] [] [("x", .num 1)] .null rfl
      (Or.inl rfl)
  · exact c5_envelope_validation.2.2.2.1 [] []
      [("tool_id", .str "t"), ("inputs", .null)] "t" .null rfl (by decide)
      (Or.inr (Or.inl rfl))
  · exact c5_envelope_validation.2.2.2.2.2 []
      [("t", ⟨"t", sampleDefinition "t", noneExecutor⟩)]
      [("tool_id", .str "t"), ("inputs", .obj [])] "t" .null
      ⟨-32601, tool_unavailable_message "t"⟩ rfl (by decide) rfl rfl

/- ---------------------------------------------------------------------------
Initializer coordination (claims C7, C8).
--------------------------------------------------------------------------- -/

/-- The invocation loop records, in order, one event per initializer of its
input list, carrying that initializer's own call result — the catch in the
loop body means a raising call never cuts the list short. -/
theorem runInitializers_eq_map (l : List Initializer) :
    runInitializers l = l.map (fun i => ⟨i.ident, i.fname, i.run ()⟩) := by
  induction l with
  | nil => rfl
  | cons i rest ih =>
    simp only [runInitializers, List.map]
    cases h : i.run () with
    | ok u => cases u; rw [ih]
    | error e => rw [ih]

/-- Membership in the dedup pass: an identity is kept iff it was not already
seen and occurs in the input. -/
theorem mem_dedupInitializers (l : List Initializer) :
    ∀ (seen : List Nat) (x : Nat),
      (∃ j ∈ dedupInitializers seen l, j.ident = x) ↔
        (x ∉ seen ∧ ∃ j ∈ l, j.ident = x) := by
  induction l with
  | nil => intro seen x; simp [dedupInitializers]
  | cons i rest ih =>
    intro seen x
    by_cases hi : i.ident ∈ seen
    · rw [dedupInitializers, if_pos hi, ih]
      constructor
      · rintro ⟨hx, j, hj, rfl⟩
        exact ⟨hx, j, List.mem_cons_of_mem i hj, rfl⟩
      · rintro ⟨hx, j, hj, rfl⟩
        rcases List.mem_cons.mp hj with rfl | hj'
        · exact absurd hi hx
        · exact ⟨hx, j, hj', rfl⟩
    · rw [dedupInitializers, if_neg hi]
      constructor
      · rintro ⟨j, hj, rfl⟩
        rcases List.mem_cons.mp hj with rfl | hj'
        · exact ⟨hi, j, List.mem_cons_self j rest, rfl⟩
        · rcases (ih (i.ident :: seen) j.ident).mp ⟨j, hj', rfl⟩ with ⟨hx, j', hj'', hj3⟩
          refine ⟨fun hmem => hx (List.mem_cons_of_mem _ hmem), j',
            List.mem_cons_of_mem i hj'', hj3⟩
      · rintro ⟨hx, j, hj, rfl⟩
        rcases List.mem_cons.mp hj with rfl | hj'
        · exact ⟨j, List.mem_cons_self j _, rfl⟩
        · by_cases hji : j.ident = i.ident
          · exact ⟨i, List.mem_cons_self i _, hji.symm⟩
          · have : j.ident ∉ i.ident :: seen := by
              intro hmem
              rcases List.mem_cons.mp hmem with h' | h'
              · exact hji h'
              · exact hx h'
            rcases (ih (i.ident :: seen) j.ident).mpr ⟨this, j, hj', rfl⟩
              with ⟨j', hj'', hj3⟩
            exact ⟨j', List.mem_cons_of_mem i hj'', hj3⟩

/-- The dedup pass produces pairwise-distinct identities, none of them already
seen. -/
theorem dedupInitializers_ids_nodup (l : List Initializer) :
    ∀ seen : List Nat,
      ((dedupInitializers seen l).map Initializer.ident).Nodup ∧
        ∀ j ∈ dedupInitializers seen l, j.ident ∉ seen := by
  induction l with
  | nil => intro seen; exact ⟨List.nodup_nil, by intro j hj; cases hj⟩
  | cons i rest ih =>
    intro seen
    by_cases hi : i.ident ∈ seen
    · rw [dedupInitializers, if_pos hi]; exact ih seen
    · rw [dedupInitializers, if_neg hi]
      obtain ⟨hnd, hseen⟩ := ih (i.ident :: seen)
      refine ⟨List.nodup_cons.mpr ⟨?_, hnd⟩, ?_⟩
      · intro hmem
        rcases List.mem_map.mp hmem with ⟨j, hj, hj2⟩
        exact hseen j hj (hj2 ▸ List.mem_cons_self _ _)
      · intro j hj
        rcases List.mem_cons.mp hj with rfl | hj'
        · exact hi
        · exact fun hmem => hseen j hj' (List.mem_cons_of_mem _ hmem)

/-- The dedup pass is a sublist of its input: kept initializers stay in their
first-seen order. -/
theorem dedupInitializers_sublist (l : List Initializer) :
    ∀ seen : List Nat, (dedupInitializers seen l).Sublist l := by
  induction l with
  | nil => intro seen; exact List.Sublist.refl []
  | cons i rest ih =>
    intro seen
    by_cases hi : i.ident ∈ seen
    · rw [dedupInitializers, if_pos hi]
      exact (ih seen).cons i
    · rw [dedupInitializers, if_neg hi]
      exact (ih (i.ident :: seen)).cons₂ i

/-- A successful `register_tool` call with an initializer leaves an
initializer of that identity in the table — either the appended one or the
already-present identical one that the shared-flag test found. -/
theorem applyRegCmd_init_mem (st : RegState) (c : RegCmd) (i : Initializer)
    (hname : (c.definition_getter ()).tool_name = c.tool_name)
    (hinit : c.init_func = some i) :
    ∃ j ∈ (applyRegCmd st c).tool_initializers, j.ident = i.ident := by
  have hne : ¬ c.tool_name ≠ (c.definition_getter ()).tool_name := by
    rw [hname]; exact fun h => h rfl
  simp only [applyRegCmd, register_tool, hinit, if_neg hne]
  by_cases hany : st.tool_initializers.any (fun j => j.ident == i.ident) = true
  · by_cases hsh : c.is_initializer_shared = true
    · simp only [hany, hsh, Bool.not_true, Bool.or_self, Bool.false_or, if_false]
      rcases List.any_eq_true.mp hany with ⟨j, hj, hj2⟩
      exact ⟨j, hj, eq_of_beq hj2⟩
    · have hsh' : c.is_initializer_shared = false := eq_false_of_ne_true hsh
      simp only [hsh', Bool.not_false, Bool.true_or, if_true]
      exact ⟨i, List.mem_append_right _ (List.mem_singleton.mpr rfl), rfl⟩
  · have hany' : st.tool_initializers.any (fun j => j.ident == i.ident) = false :=
      eq_false_of_ne_true hany
    simp only [hany', Bool.not_false, Bool.or_true, if_true]
    exact ⟨i, List.mem_append_right _ (List.mem_singleton.mpr rfl), rfl⟩

/-- A registration step only ever appends to the initializer table. -/
theorem applyRegCmd_initializers_extend (st : RegState) (c : RegCmd) :
    ∃ suffix, (applyRegCmd st c).tool_initializers
      = st.tool_initializers ++ suffix := by
  simp only [applyRegCmd, register_tool]
  by_cases hne : c.tool_name ≠ (c.definition_getter ()).tool_name
  · simp only [if_pos hne]
    exact ⟨[], (List.append_nil _).symm⟩
  · simp only [if_neg hne]
    cases hini : c.init_func with
    | none => exact ⟨[], (List.append_nil _).symm⟩
    | some i =>
      by_cases hc : (!c.is_initializer_shared
          || !(st.tool_initializers.any (fun j => j.ident == i.ident))) = true
      · simp only [hc, if_true]
        exact ⟨[i], rfl⟩
      · simp only [eq_false_of_ne_true hc, if_false]
        exact ⟨[], (List.append_nil _).symm⟩

/-- Membership in the initializer table persists across the remainder of a
registration pass. -/
theorem mem_initializers_foldl (cmds : List RegCmd) :
    ∀ (st : RegState) (j : Initializer), j ∈ st.tool_initializers →
      j ∈ (cmds.foldl applyRegCmd st).tool_initializers := by
  induction cmds with
  | nil => intro st j hj; exact hj
  | cons c rest ih =>
    intro st j hj
    rw [List.foldl_cons]
    obtain ⟨suffix, hs⟩ := applyRegCmd_initializers_extend st c
    exact ih _ j (hs ▸ List.mem_append_left suffix hj)

/-- C7: when a registration pass contains two distinct successful
registrations marked `is_initializer_shared` that refer to the identical
initializer callable, `initialize_all_tools` invokes that initializer exactly
once (its identity appears exactly once among the invocation events).
Deduplication is by identity and preserves first-seen order: the unique list
has pairwise-distinct identities, is a sublist of the registration-time table
(so it keeps the table's order), and holds exactly the identities of the
table. -/
theorem c7_shared_initializer_runs_once
    (cmds : List RegCmd) (c1 c2 : RegCmd) (i : Initializer)
    (h1 : c1 ∈ cmds) (h2 : c2 ∈ cmds) (hcne : c1 ≠ c2)
    (hs1 : c1.is_initializer_shared = true) (hs2 : c2.is_initializer_shared = true)
    (hi1 : c1.init_func = some i) (hi2 : c2.init_func = some i)
    (hn1 : (c1.definition_getter ()).tool_name = c1.tool_name)
    (hn2 : (c2.definition_getter ()).tool_name = c2.tool_name) :
    ((initialize_all_tools (run_registration_pass cmds)).map
        InitEvent.initId).count i.ident = 1
    ∧ ((unique_initializers (run_registration_pass cmds)).map
        Initializer.ident).Nodup
    ∧ (unique_initializers (run_registration_pass cmds)).Sublist
        (run_registration_pass cmds).tool_initializers
    ∧ ∀ x, (∃ j ∈ unique_initializers (run_registration_pass cmds), j.ident = x)
        ↔ ∃ j ∈ (run_registration_pass cmds).tool_initializers, j.ident = x := by
  have hmem : ∃ j ∈ (run_registration_pass cmds).tool_initializers,
      j.ident = i.ident := by
    obtain ⟨s, t, rfl⟩ := List.append_of_mem h1
    rw [run_registration_pass, List.foldl_append, List.foldl_cons]
    obtain ⟨j, hj, hj2⟩ :=
      applyRegCmd_init_mem (s.foldl applyRegCmd RegState.empty) c1 i hn1 hi1
    exact ⟨j, mem_initializers_foldl t _ j hj, hj2⟩
  have hnd : ((unique_initializers (run_registration_pass cmds)).map
      Initializer.ident).Nodup :=
    (dedupInitializers_ids_nodup _ []).1
  have hiff : ∀ x,
      (∃ j ∈ unique_initializers (run_registration_pass cmds), j.ident = x)
        ↔ ∃ j ∈ (run_registration_pass cmds).tool_initializers, j.ident = x := by
    intro x
    rw [unique_initializers, mem_dedupInitializers]
    simp
  refine ⟨?_, hnd, dedupInitializers_sublist _ [], hiff⟩
  have hmu : i.ident ∈ (unique_initializers (run_registration_pass cmds)).map
      Initializer.ident := by
    obtain ⟨j, hj, hj2⟩ := (hiff i.ident).mpr hmem
    exact List.mem_map.mpr ⟨j, hj, hj2⟩
  have hre : (initialize_all_tools (run_registration_pass cmds)).map
      InitEvent.initId = (unique_initializers (run_registration_pass cmds)).map
        Initializer.ident := by
    rw [initialize_all_tools, runInitializers_eq_map, List.map_map]
    rfl
  rw [hre]
  exact List.count_eq_one_of_mem hnd hmu

/-- The shared Google Sheets initializer of the witness scenario. -/
def sharedInit : Initializer := ⟨0, "initialize_google_sheets_tool", fun _ => .ok ()⟩

/-- A registration command sharing `sharedInit`, as the three sheets tools do. -/
def sheetsCmd (n : String) : RegCmd :=
  ⟨n, fun _ => sampleDefinition n, sampleExecutor, some sharedInit, true⟩

/-- Closed instance of `c7_shared_initializer_runs_once`: two sheets-style
registrations share one initializer, which then runs exactly once. -/
theorem c7_shared_initializer_runs_once_witness :
    ((initialize_all_tools (run_registration_pass
        [sheetsCmd "google_sheets_append", sheetsCmd "google_sheets_read"])).map
      InitEvent.initId).count sharedInit.ident = 1 :=
  (c7_shared_initializer_runs_once
    [sheetsCmd "google_sheets_append", sheetsCmd "google_sheets_read"]
    (sheetsCmd "google_sheets_append") (sheetsCmd "google_sheets_read") sharedInit
    (List.mem_cons_self _ _) (List.mem_cons_of_mem _ (List.mem_cons_self _ _))
    (fun h => absurd (congrArg RegCmd.tool_name h) (by decide))
    rfl rfl rfl rfl rfl rfl).1

/-- C8: if the `k`-th unique initializer raises when `initialize_all_tools`
runs it, the pass still performs one invocation per unique initializer, in
order, each with its own call result — the exception is caught and recorded,
no later initializer is skipped, and nothing propagates out (the run is a
total function of the list). -/
theorem c8_initializer_failure_isolated
    (st : RegState) (k : Nat) (msg : String)
    (hk : k < (unique_initializers st).length)
    (hraise : ((unique_initializers st).get ⟨k, hk⟩).run () = Except.error msg) :
    initialize_all_tools st =
      (unique_initializers st).map (fun i => ⟨i.ident, i.fname, i.run ()⟩)
    ∧ ∀ m, k < m → (initialize_all_tools st)[m]? =
        ((unique_initializers st)[m]?).map (fun i => ⟨i.ident, i.fname, i.run ()⟩) := by
  constructor
  · exact runInitializers_eq_map _
  · intro m _
    rw [initialize_all_tools, runInitializers_eq_map, List.getElem?_map]

/-- A failing Tavily-style initializer for the C8 witness. -/
def failingInit : Initializer :=
  ⟨1, "initialize_tavily_search_tool", fun _ => .error "TAVILY_API_KEY not set"⟩

/-- A registration-phase state holding a failing initializer followed by a
succeeding one. -/
def c8State : RegState := ⟨[], [], [failingInit, sharedInit]⟩

/-- Closed instance of `c8_initializer_failure_isolated`: with the first
initializer raising, both initializers are still invoked in order. -/
theorem c8_initializer_failure_isolated_witness :
    initialize_all_tools c8State =
      (unique_initializers c8State).map (fun i => ⟨i.ident, i.fname, i.run ()⟩) :=
  (c8_initializer_failure_isolated c8State 0 "TAVILY_API_KEY not set"
    (by decide) rfl).1

/- ---------------------------------------------------------------------------
Registry consistency (claim C10).
--------------------------------------------------------------------------- -/

/-- Inserting a key leaves the key sequence unchanged when the key is present
and appends it otherwise — in either case the key sequence depends only on the
old key sequence and the key. -/
theorem dictInsert_keys {α : Type} (fs : List (String × α)) (k : String) (v : α) :
    (dictInsert fs k v).map Prod.fst =
      if fs.any (fun p => p.1 == k) then fs.map Prod.fst
      else fs.map Prod.fst ++ [k] := by
  by_cases h : fs.any (fun p => p.1 == k) = true
  · rw [dictInsert, if_pos h, if_pos h, List.map_map]
    apply List.map_congr_left
    intro p _
    by_cases hpk : (p.1 == k) = true
    · simp only [Function.comp_apply]
      rw [if_pos hpk]
      exact (eq_of_beq hpk).symm
    · simp only [Function.comp_apply]
      rw [if_neg hpk]
  · rw [dictInsert, if_neg h, if_neg h, List.map_append]
    rfl

/-- Every entry of `dictInsert fs k v` is an old entry or the new pair. -/
theorem mem_dictInsert {α : Type} {fs : List (String × α)} {k : String} {v : α}
    {q : String × α} (h : q ∈ dictInsert fs k v) : q ∈ fs ∨ q = (k, v) := by
  rw [dictInsert] at h
  by_cases hc : fs.any (fun p => p.1 == k) = true
  · rw [if_pos hc] at h
    rcases List.mem_map.mp h with ⟨p, hp, hq⟩
    by_cases hpk : (p.1 == k) = true
    · rw [if_pos hpk] at hq
      exact Or.inr hq.symm
    · rw [if_neg hpk] at hq
      exact Or.inl (hq ▸ hp)
  · rw [if_neg hc] at h
    rcases List.mem_append.mp h with hl | hr
    · exact Or.inl hl
    · exact Or.inr (List.mem_singleton.mp hr)

/-- Whether some key of an association list matches depends only on the key
sequence. -/
theorem any_fst_eq {α : Type} (fs : List (String × α)) (k : String) :
    fs.any (fun p => p.1 == k) = (fs.map Prod.fst).any (fun s => s == k) := by
  induction fs with
  | nil => rfl
  | cons p rest ih => simp [List.any_cons, ih]

/-- The C10 invariant over the registration tables: definitions and executors
share one key sequence, and every stored definition is named after its key. -/
def RegInv (st : RegState) : Prop :=
  st.tool_definitions.map Prod.fst = st.tool_executors.map Prod.fst
    ∧ ∀ p ∈ st.tool_definitions, (p.2).tool_name = p.1

/-- The freshly loaded module satisfies the invariant. -/
theorem regInv_empty : RegInv RegState.empty :=
  ⟨rfl, by intro p hp; cases hp⟩

/-- One registration call — succeeding or raising — preserves the invariant. -/
theorem regInv_applyRegCmd (st : RegState) (c : RegCmd) (h : RegInv st) :
    RegInv (applyRegCmd st c) := by
  simp only [applyRegCmd, register_tool]
  by_cases hne : c.tool_name ≠ (c.definition_getter ()).tool_name
  · simp only [if_pos hne]
    exact h
  · simp only [if_neg hne]
    have hname : (c.definition_getter ()).tool_name = c.tool_name :=
      (not_ne_iff.mp hne).symm
    constructor
    · show (dictInsert st.tool_definitions c.tool_name _).map Prod.fst
        = (dictInsert st.tool_executors c.tool_name _).map Prod.fst
      rw [dictInsert_keys, dictInsert_keys]
      have hany : st.tool_definitions.any (fun p => p.1 == c.tool_name)
          = st.tool_executors.any (fun p => p.1 == c.tool_name) := by
        rw [any_fst_eq, any_fst_eq, h.1]
      rw [hany, h.1]
    · intro p hp
      rcases mem_dictInsert hp with hold | hnew
      · exact h.2 p hold
      · rw [hnew]
        exact hname

/-- The invariant holds after an arbitrary registration pass. -/
theorem regInv_foldl (cmds : List RegCmd) :
    ∀ st : RegState, RegInv st → RegInv (cmds.foldl applyRegCmd st) := by
  induction cmds with
  | nil => intro st h; exact h
  | cons c rest ih =>
    intro st h
    rw [List.foldl_cons]
    exact ih _ (regInv_applyRegCmd st c h)

/-- Per-entry consistency of the dispatcher registry. -/
def RegistryConsistent (reg : ToolRegistry) : Prop :=
  ∀ q ∈ reg, (q.2).name = q.1 ∧ (q.2).definition.tool_name = q.1

/-- The registry built by `discover_and_register_tools` is consistent when the
definitions table names every definition after its key. -/
theorem discover_consistent (st : RegState)
    (hdefs : ∀ p ∈ st.tool_definitions, (p.2).tool_name = p.1) :
    RegistryConsistent (discover_and_register_tools st) := by
  rw [discover_and_register_tools]
  have hgen : ∀ (l : List (String × ToolDefinition)) (acc : ToolRegistry),
      RegistryConsistent acc → (∀ p ∈ l, (p.2).tool_name = p.1) →
      RegistryConsistent (l.foldl (fun reg p =>
        match dictGet st.tool_executors p.1 with
        | some ex => dictInsert reg p.1 ⟨p.1, p.2, ex⟩
        | none => reg) acc) := by
    intro l
    induction l with
    | nil => intro acc hacc _; exact hacc
    | cons p rest ih =>
      intro acc hacc hl
      rw [List.foldl_cons]
      refine ih _ ?_ (fun q hq => hl q (List.mem_cons_of_mem p hq))
      cases hex : dictGet st.tool_executors p.1 with
      | none => exact hacc
      | some ex =>
        intro q hq
        rcases mem_dictInsert hq with hold | hnew
        · exact hacc q hold
        · rw [hnew]
          exact ⟨rfl, hl p (List.mem_cons_self p rest)⟩
  exact hgen st.tool_definitions [] (by intro q hq; cases hq) hdefs

/-- A successful `dictGet` pins the entry: it is a member whose key is the
queried one. -/
theorem dictGet_some_mem {α : Type} {fs : List (String × α)} {k : String}
    {v : α} (h : dictGet fs k = some v) : (k, v) ∈ fs := by
  rw [dictGet] at h
  rcases Option.map_eq_some'.mp h with ⟨q, hq, hqv⟩
  have hqm := List.mem_of_find?_eq_some hq
  have hk := List.find?_some hq
  cases q with
  | mk a b =>
    simp only at hqv hk
    have ha : a = k := eq_of_beq hk
    subst ha
    subst hqv
    exact hqm

/-- C10: after any registration pass, the definitions and executors tables
have the same key sequence and every stored definition is named after its key;
consequently every tool in the dispatcher registry built from the pass carries
its registration key as both its `name` and its definition's `tool_name`. -/
theorem c10_registration_tables_consistent (cmds : List RegCmd) :
    (run_registration_pass cmds).tool_definitions.map Prod.fst
      = (run_registration_pass cmds).tool_executors.map Prod.fst
    ∧ (∀ p ∈ (run_registration_pass cmds).tool_definitions,
        (p.2).tool_name = p.1)
    ∧ ∀ (name : String) (rt : RegisteredTool),
        dictGet (discover_and_register_tools (run_registration_pass cmds)) name
          = some rt →
        rt.name = name ∧ rt.definition.tool_name = name := by
  have hinv : RegInv (run_registration_pass cmds) :=
    regInv_foldl cmds RegState.empty regInv_empty
  refine ⟨hinv.1, hinv.2, ?_⟩
  intro name rt h
  exact discover_consistent _ hinv.2 (name, rt) (dictGet_some_mem h)

/-- Closed instance of `c10_registration_tables_consistent` at a one-command
pass: the key lists agree, the stored definition is named after its key, and
the registered dispatcher tool is consistent. -/
theorem c10_registration_tables_consistent_witness :
    (run_registration_pass [sheetsCmd "t"]).tool_definitions.map Prod.fst
      = (run_registration_pass [sheetsCmd "t"]).tool_executors.map Prod.fst
    ∧ (sampleDefinition "t").tool_name = "t"
    ∧ RegisteredTool.name ⟨"t", sampleDefinition "t", sampleExecutor⟩ = "t" := by
  refine ⟨(c10_registration_tables_consistent [sheetsCmd "t"]).1, ?_, ?_⟩
  · exact (c10_registration_tables_consistent [sheetsCmd "t"]).2.1
      ("t", sampleDefinition "t") (List.Mem.head _)
  · exact ((c10_registration_tables_consistent [sheetsCmd "t"]).2.2 "t"
      ⟨"t", sampleDefinition "t", sampleExecutor⟩ rfl).1

end Toolkit
